import Mathlib

/-!
Verification of the ecpps entity-component-system core (src/ecpps.h) against
its natural-language specification.

The C++ header is shallowly embedded: `std::map<ID, unsigned>` becomes an
association list with `std::map` insert/erase/lookup semantics, `std::vector<T>`
becomes `List`, a thrown `std::out_of_range` (from `map::at` / `vector::at`)
becomes the error value `Err.notFound`, and each member function of the header
becomes a Lean function on the corresponding state record, translated
statement by statement from the source.
-/

set_option maxRecDepth 4000

namespace Ecpps

/-- Entity identifier, `typedef unsigned ID` in the source (modelled as `Nat`). -/
abbrev ID := Nat

/-- The only failure the source can produce at the operations under study is a
thrown `std::out_of_range` from `map::at` / `vector::at`, which the spec's
taxonomy calls `NotFound`.  The source never produces `DoubleInsert` or
`InvalidType`. -/
inductive Err where
  | notFound
  deriving DecidableEq, Repr

/-- Lookup in an association list modelling `std::map` access by key
(first entry with the key; a well-formed map has unique keys). -/
def mlookup {β : Type} : List (Nat × β) → Nat → Option β
  | [], _ => none
  | (k, v) :: rest, id => if id = k then some v else mlookup rest id

/-- `std::map::insert({k, v})`: inserts only when the key is absent, otherwise
leaves the map unchanged (this no-overwrite behaviour is load-bearing for the
double-insert defect). -/
def mapInsert {β : Type} (l : List (Nat × β)) (k : Nat) (v : β) : List (Nat × β) :=
  if (mlookup l k).isSome then l else (k, v) :: l

/-- `std::map::erase(k)`: removes the entry with key `k` (a map holds at most
one entry per key, so removing every occurrence coincides with `std::map`). -/
def mapErase {β : Type} : List (Nat × β) → Nat → List (Nat × β)
  | [], _ => []
  | (k', v) :: rest, k => if k' = k then mapErase rest k else (k', v) :: mapErase rest k

@[simp] theorem mlookup_nil {β : Type} (id : Nat) : mlookup ([] : List (Nat × β)) id = none := rfl

@[simp] theorem mlookup_cons {β : Type} (k : Nat) (v : β) (rest : List (Nat × β)) (id : Nat) :
    mlookup ((k, v) :: rest) id = if id = k then some v else mlookup rest id := rfl

theorem mlookup_mem {β : Type} {l : List (Nat × β)} {id : Nat} {v : β}
    (h : mlookup l id = some v) : (id, v) ∈ l := by
  induction l with
  | nil => simp at h
  | cons p rest ih =>
    obtain ⟨k, w⟩ := p
    rw [mlookup_cons] at h
    by_cases hk : id = k
    · rw [if_pos hk] at h
      obtain rfl : w = v := Option.some.inj h
      simp [hk]
    · rw [if_neg hk] at h
      exact List.mem_cons_of_mem _ (ih h)

@[simp] theorem mapErase_nil {β : Type} (k : Nat) : mapErase ([] : List (Nat × β)) k = [] := rfl

@[simp] theorem mapErase_cons {β : Type} (k' : Nat) (v : β) (rest : List (Nat × β)) (k : Nat) :
    mapErase ((k', v) :: rest) k =
      if k' = k then mapErase rest k else (k', v) :: mapErase rest k := rfl

theorem mlookup_mapErase_self {β : Type} (l : List (Nat × β)) (k : Nat) :
    mlookup (mapErase l k) k = none := by
  induction l with
  | nil => rfl
  | cons p rest ih =>
    obtain ⟨k', w⟩ := p
    rw [mapErase_cons]
    by_cases hk : k' = k
    · rw [if_pos hk]; exact ih
    · rw [if_neg hk, mlookup_cons, if_neg (fun h => hk h.symm)]; exact ih

theorem mlookup_mapErase_ne {β : Type} (l : List (Nat × β)) (k id : Nat) (h : id ≠ k) :
    mlookup (mapErase l k) id = mlookup l id := by
  induction l with
  | nil => rfl
  | cons p rest ih =>
    obtain ⟨k', w⟩ := p
    rw [mapErase_cons]
    by_cases hk : k' = k
    · subst hk
      rw [if_pos rfl, mlookup_cons, if_neg h]; exact ih
    · rw [if_neg hk, mlookup_cons, mlookup_cons]
      by_cases hid : id = k'
      · rw [if_pos hid, if_pos hid]
      · rw [if_neg hid, if_neg hid]; exact ih

theorem mem_mapErase {β : Type} {l : List (Nat × β)} {k : Nat} {p : Nat × β}
    (h : p ∈ mapErase l k) : p ∈ l ∧ p.1 ≠ k := by
  induction l with
  | nil => simp at h
  | cons q rest ih =>
    obtain ⟨k', w⟩ := q
    rw [mapErase_cons] at h
    by_cases hk : k' = k
    · rw [if_pos hk] at h
      obtain ⟨h1, h2⟩ := ih h
      exact ⟨List.mem_cons_of_mem _ h1, h2⟩
    · rw [if_neg hk] at h
      rcases List.mem_cons.mp h with h1 | h2
      · subst h1; exact ⟨List.mem_cons_self _ _, hk⟩
      · obtain ⟨h1, h2⟩ := ih h2
        exact ⟨List.mem_cons_of_mem _ h1, h2⟩

theorem mlookup_append_of_none {β : Type} {l1 : List (Nat × β)} (l2 : List (Nat × β))
    (k : Nat) (h : mlookup l1 k = none) : mlookup (l1 ++ l2) k = mlookup l2 k := by
  induction l1 with
  | nil => rfl
  | cons p rest ih =>
    obtain ⟨k', v⟩ := p
    rw [mlookup_cons] at h
    by_cases hk : k = k'
    · rw [if_pos hk] at h; exact absurd h (by simp)
    · rw [if_neg hk] at h
      rw [List.cons_append, mlookup_cons, if_neg hk]
      exact ih h

theorem mlookup_map_snd {β γ : Type} (g : Nat → β → γ) (l : List (Nat × β)) (k : Nat) :
    mlookup (l.map (fun p => (p.1, g p.1 p.2))) k = (mlookup l k).map (g k) := by
  induction l with
  | nil => rfl
  | cons p rest ih =>
    obtain ⟨k', v⟩ := p
    rw [List.map_cons, mlookup_cons, mlookup_cons]
    by_cases hk : k = k'
    · subst hk; rw [if_pos rfl, if_pos rfl]; rfl
    · rw [if_neg hk, if_neg hk]; exact ih

/-- `ComponentVector<T>` (src/ecpps.h 62-74): the sparse index
`map<ID, unsigned> indexes` maps an entity to its slot in the dense
`vector<T> components`. -/
structure ComponentVector (α : Type) where
  indexes : List (ID × Nat)
  components : List α
  deriving DecidableEq, Repr

namespace ComponentVector

variable {α : Type}

/-- A freshly constructed store (`make_shared<ComponentVector<T>>()`). -/
def empty (α : Type) : ComponentVector α := ⟨[], []⟩

/-- `ComponentVector<T>::addComponent` (src/ecpps.h 162-188): `index` is `0`
when the dense vector is empty and `components.size()` otherwise;
`indexes.insert(\x7bentityID, index\x7d)` is a `std::map::insert`, hence a no-op
when `entityID` already has an entry; the component is unconditionally
appended to the dense vector.  The function never fails. -/
def addComponent (cv : ComponentVector α) (entityID : ID) (component : α) :
    ComponentVector α :=
  let index := if cv.components.isEmpty then 0 else cv.components.length
  { indexes := mapInsert cv.indexes entityID index,
    components := cv.components ++ [component] }

/-- The renumbering pass of `removeEntity` (src/ecpps.h 203-213): a sparse
entry whose slot exceeds the removed slot is decremented by one. -/
def renumber (index : Nat) (p : ID × Nat) : ID × Nat :=
  if p.2 > index then (p.1, p.2 - 1) else p

/-- `ComponentVector<T>::removeEntity` (src/ecpps.h 190-214):
`indexes.at(entityID)` throws (`notFound`) when the entity is absent;
otherwise the sparse entry is erased, the dense element at the recorded slot
is erased (shifting all later elements down one position), and every remaining
slot greater than the removed one is decremented. -/
def removeEntity (cv : ComponentVector α) (entityID : ID) :
    Except Err (ComponentVector α) :=
  match mlookup cv.indexes entityID with
  | none => .error .notFound
  | some index =>
    .ok { indexes := (mapErase cv.indexes entityID).map (renumber index),
          components := cv.components.eraseIdx index }

/-- `ComponentVector<T>::getComponentAt` (src/ecpps.h 216-222):
`indexes[entityID]` uses `map::operator[]`, which value-initialises the slot
to `0` and inserts it when `entityID` is absent; then `components.at(index)`
throws when the slot is out of range.  Returns the result together with the
(possibly mutated) store. -/
def getComponentAt (cv : ComponentVector α) (entityID : ID) :
    Except Err α × ComponentVector α :=
  let (index, indexes) :=
    match mlookup cv.indexes entityID with
    | some i => (i, cv.indexes)
    | none => (0, mapInsert cv.indexes entityID 0)
  match cv.components[index]? with
  | some c => (.ok c, { cv with indexes := indexes })
  | none => (.error .notFound, { cv with indexes := indexes })

end ComponentVector

/-- Key identifying a component type (`typeid(T).name()` in the source,
modelled as a stable numeric token). -/
abbrev TypeKey := Nat

/-- `ComponentManager` (src/ecpps.h 77-84): the type-keyed registry
`map<const char*, shared_ptr<IComponentVector>>`, one `ComponentVector` per
component type.  Component payloads are modelled uniformly as `Nat`; none of
the claims depends on the payload type. -/
abbrev ComponentManager := List (TypeKey × ComponentVector Nat)

namespace ComponentManager

/-- The lazy-creation step of `ComponentManager::getComponentVector<T>`
(src/ecpps.h 234-247): when no store exists for the type key, an empty one is
inserted. -/
def ensureVector (cm : ComponentManager) (tkey : TypeKey) : ComponentManager :=
  if (mlookup cm tkey).isSome then cm else cm ++ [(tkey, ComponentVector.empty Nat)]

/-- `ComponentManager::addComponent<T>` (src/ecpps.h 224-232): obtains the
store for the type via `getComponentVector<T>` (creating it when absent) and
forwards to its `addComponent`. -/
def addComponent (cm : ComponentManager) (tkey : TypeKey) (entityID : ID) (v : Nat) :
    ComponentManager :=
  (ensureVector cm tkey).map
    (fun p => if p.1 = tkey then (p.1, p.2.addComponent entityID v) else p)

/-- `ComponentManager::removeEntity` (src/ecpps.h 249-255): iterates over
every store and calls its `removeEntity`.  A thrown `out_of_range` from a
store lacking the entity aborts the loop (C++ exception propagation): stores
visited before the failure keep their mutation, the failing store and all
later stores are untouched.  Returns the error, if any, together with the
resulting store list. -/
def removeEntity : ComponentManager → ID → Option Err × ComponentManager
  | [], _ => (none, [])
  | (k, cv) :: rest, entityID =>
    match cv.removeEntity entityID with
    | .error e => (some e, (k, cv) :: rest)
    | .ok cv2 =>
      let (err, rest2) := removeEntity rest entityID
      (err, (k, cv2) :: rest2)

/-- The per-entry update function used by `ComponentManager.addComponent`,
rewritten in the key-preserving shape required by `mlookup_map_snd`. -/
theorem updFun_eq_pairMap (tkey : TypeKey) (entityID : ID) (v : Nat) :
    (fun p : TypeKey × ComponentVector Nat =>
        if p.1 = tkey then (p.1, p.2.addComponent entityID v) else p) =
      fun p => (p.1, if p.1 = tkey then p.2.addComponent entityID v else p.2) := by
  funext p
  by_cases h : p.1 = tkey
  · simp [h]
  · simp [h]

end ComponentManager

/-- A registered behaviour unit (an object stored in `vector<System>` or
`vector<RenderSystem>`).  `tag` identifies the concrete type; `inited`
records whether `init()` has ever been invoked on this very object. -/
structure SysInstance where
  tag : Nat
  inited : Bool
  deriving DecidableEq, Repr

/-- `ECSManager` (src/ecpps.h 102-134): the two ordered system lists, the
component registry, the `entities` map (modelled by its key set), the ID
counter and the reusable-ID pool. -/
structure ECSManager where
  systems : List SysInstance
  rsystems : List SysInstance
  components : ComponentManager
  entities : List ID
  nextID : ID
  reusableIDs : List ID
  deriving DecidableEq, Repr

namespace ECSManager

/-- A default-constructed `ECSManager()`. -/
def empty : ECSManager := ⟨[], [], [], [], 0, []⟩

/-- `ECSManager::generateEntityID` (src/ecpps.h 325-343): pops the most
recently freed ID from the back of `reusableIDs` when the pool is non-empty,
otherwise issues `nextID` and increments the counter. -/
def generateEntityID (st : ECSManager) : ID × ECSManager :=
  match st.reusableIDs.getLast? with
  | some i => (i, { st with reusableIDs := st.reusableIDs.dropLast })
  | none => (st.nextID, { st with nextID := st.nextID + 1 })

/-- `ECSManager::createEntity` (src/ecpps.h 259-271): generates an ID and
inserts a new `Entity` into the `entities` map (`map::insert`, a no-op when
the key is already present).  Returns the new ID and the new state. -/
def createEntity (st : ECSManager) : ID × ECSManager :=
  let (newID, st1) := st.generateEntityID
  (newID,
   { st1 with
     entities := if newID ∈ st1.entities then st1.entities else newID :: st1.entities })

/-- `ECSManager::destroyEntity` (src/ecpps.h 273-286): `entities.at(entityID)`
throws (`notFound`) when the id is not live, leaving everything unchanged;
otherwise the removal is fanned out across every component store, then the
entity is erased from the map and its id appended to `reusableIDs`.  When the
fan-out throws, the exception propagates: the entity stays live and its id is
not recycled, while stores visited before the failure keep their mutation. -/
def destroyEntity (st : ECSManager) (entityID : ID) : Option Err × ECSManager :=
  if entityID ∈ st.entities then
    match ComponentManager.removeEntity st.components entityID with
    | (some e, cm2) => (some e, { st with components := cm2 })
    | (none, cm2) =>
      (none, { st with components := cm2,
                       entities := st.entities.erase entityID,
                       reusableIDs := st.reusableIDs ++ [entityID] })
  else (some .notFound, st)

/-- `ECSManager::addComponent<T>` (src/ecpps.h 288-295): when
`is_base_of<Component, T>` holds (argument `isComponent`) the call is
forwarded to the component manager, otherwise it silently does nothing.
There is no liveness check on `entityID` and no error is ever produced. -/
def addComponent (st : ECSManager) (isComponent : Bool) (tkey : TypeKey)
    (entityID : ID) (v : Nat) : ECSManager :=
  if isComponent then
    { st with components := ComponentManager.addComponent st.components tkey entityID v }
  else st

/-- `ECSManager::registerSystem<T>` (src/ecpps.h 303-323) for a type `T` with
`is_base_of<System, T> = isSystem` and `is_base_of<RenderSystem, T> =
isRender`, identified by `tag`.  Returns the new state together with the
number of instances of `T` constructed during the call.  Inside the `System`
branch the code, when `T` is a `RenderSystem`, first constructs a `T` and
appends it to `rsystems` without calling `init()`; it then always constructs
a second `T`, appends it to `systems`, and only afterwards calls `init()` on
the local variable — after the copy was placed in the vector — so no stored
instance ever has `inited = true`. -/
def registerSystem (st : ECSManager) (isSystem isRender : Bool) (tag : Nat) :
    ECSManager × Nat :=
  if isSystem then
    let (st1, n1) :=
      if isRender then
        let rsystem : SysInstance := ⟨tag, false⟩
        ({ st with rsystems := st.rsystems ++ [rsystem] }, 1)
      else (st, 0)
    let system : SysInstance := ⟨tag, false⟩
    let st2 := { st1 with systems := st1.systems ++ [system] }
    (st2, n1 + 1)
  else (st, 0)

/-- `ECSManager::render` (src/ecpps.h 364-369): the sequence of stored
render-system instances on which `render` is invoked, in list order, one call
each. -/
def renderCalls (st : ECSManager) : List SysInstance := st.rsystems

end ECSManager

/-- One external registry operation, for claims quantifying over call
sequences: an arbitrary interleaving of `createEntity`, `destroyEntity` and
`addComponent` calls. -/
inductive Op where
  | create
  | destroy (entityID : ID)
  | addComp (isComponent : Bool) (tkey : TypeKey) (entityID : ID) (v : Nat)
  deriving DecidableEq, Repr

/-- Apply one operation to the manager state (return values discarded). -/
def applyOp (st : ECSManager) : Op → ECSManager
  | .create => (st.createEntity).2
  | .destroy entityID => (st.destroyEntity entityID).2
  | .addComp b t entityID v => st.addComponent b t entityID v

/-- Run a sequence of operations on a default-constructed manager. -/
def run (ops : List Op) : ECSManager := ops.foldl applyOp ECSManager.empty

/-!  Claim theorems. -/

/-- `renumber` only rewrites the slot component, never the key. -/
theorem renumber_eq_pairMap (i : Nat) :
    ComponentVector.renumber i =
      fun p : ID × Nat => (p.1, if i < p.2 then p.2 - 1 else p.2) := by
  funext p
  obtain ⟨k, v⟩ := p
  by_cases h : i < v
  · simp [ComponentVector.renumber, h]
  · simp [ComponentVector.renumber, h]

/-- In a store whose slots are pairwise distinct, a slot determines its
entity. -/
theorem slot_unique {l : List (ID × Nat)} (hslots : (l.map Prod.snd).Nodup)
    {e1 e2 : ID} {j : Nat} (h1 : (e1, j) ∈ l) (h2 : (e2, j) ∈ l) : e1 = e2 := by
  have h := List.inj_on_of_nodup_map hslots h1 h2 rfl
  exact congrArg Prod.fst h

/-- Claim C1 (refuted; evaluation at the failing input): the claim says a
second insert of a `T` for the same id fails with `DoubleInsert` and leaves
the dense array and sparse index unchanged.  The code instead succeeds
silently: inserting value 10 and then value 20 for entity 0 leaves the sparse
index at `0 ↦ 0` (the `map::insert` no-op) while the dense array has grown to
`[10, 20]` — a silent duplicate/slot leak, no `DoubleInsert` anywhere
(`addComponent` is total and has no error result at all). -/
theorem claim1_double_insert_silently_leaks :
    ComponentVector.addComponent
        (ComponentVector.addComponent (ComponentVector.empty Nat) 0 10) 0 20 =
      ComponentVector.mk [(0, 0)] [10, 20] := by
  decide

/-- Claim C2 (refuted; evaluation at the failing input): the claim says
`registerSystem<T>()` constructs exactly one instance of `T`, appends it to
exactly one of the two lists (never both), and calls `init()` exactly once on
the registered instance before any `update()`/`render()`.  Registering a
`RenderSystem`-derived type (`isSystem = true`, `isRender = true`, tag 7) on
a fresh manager instead constructs two instances (second component `2`),
appends one to `rsystems` and one to `systems` — both lists — and neither
stored instance ever has `init()` invoked on it (`inited = false` for both:
the code calls `init()` only on a local variable, after the copy was already
placed in the `systems` vector). -/
theorem claim2_register_render_system_double_registers :
    ECSManager.registerSystem ECSManager.empty true true 7 =
      (ECSManager.mk [SysInstance.mk 7 false] [SysInstance.mk 7 false] [] [] 0 [], 2) := by
  decide

/-- Claim C3 (refuted; evaluation at the failing input): the claim says
`get(id)` succeeds iff an insert for `id` is outstanding, and fails with
`NotFound` when `id` holds no `T`.  On a store holding only entity 1 (value
10), `getComponentAt 2` — entity 2 was never inserted — succeeds with
`ok 10` (the dense element at slot 0, entity 1's value) instead of failing:
`map::operator[]` default-constructs slot 0 for the unknown id, which the
resulting store's polluted sparse index `[(2, 0), (1, 0)]` exhibits. -/
theorem claim3_get_on_absent_id_spuriously_succeeds :
    ComponentVector.getComponentAt
        (ComponentVector.addComponent (ComponentVector.empty Nat) 1 10) 2 =
      (Except.ok 10, ComponentVector.mk [(2, 0), (1, 0)] [10]) := rfl

/-- Claim C5 (refuted; evaluation at the failing input): the claim says the
registry-level `removeEntity(id)` silently skips any store in which `id` is
absent.  With a single store (type key 0) holding only entity 1, the fan-out
`removeEntity 0` does not skip: the store's own `removeEntity` throws
(`indexes.at(0)`, modelled as `notFound`) and the exception propagates out of
the fan-out loop, leaving the store list unchanged. -/
theorem claim5_fanout_propagates_store_error :
    ComponentManager.removeEntity [(0, ComponentVector.mk [(1, 0)] [42])] 0 =
      (some Err.notFound, [(0, ComponentVector.mk [(1, 0)] [42])]) := by
  decide

/-- Claim C4 (refuted in its second half; evaluation at the failing input):
the claim says every live id is removed from every component store by
`destroyEntity` before the id becomes reusable.  After `createEntity` twice
and `addComponent` of component type 0 to entity 1 only, entity 0 is live,
yet `destroyEntity 0` fails (`notFound` thrown by the store that lacks
entity 0) and leaves the whole manager unchanged — entity 0 stays live and
`reusableIDs` stays empty, so the id never becomes reusable.  (The claim's
first half — destroy of a non-live id fails with `NotFound` and changes
nothing — does hold, as the final conjunct shows for the already-absent
id 5.) -/
theorem claim4_destroy_live_entity_fails_on_missing_store :
    (0 ∈ (run [Op.create, Op.create, Op.addComp true 0 1 42]).entities) ∧
    (run [Op.create, Op.create, Op.addComp true 0 1 42]).destroyEntity 0 =
      (some Err.notFound, run [Op.create, Op.create, Op.addComp true 0 1 42]) ∧
    (run [Op.create, Op.create, Op.addComp true 0 1 42]).reusableIDs = [] ∧
    (run [Op.create, Op.create, Op.addComp true 0 1 42]).destroyEntity 5 =
      (some Err.notFound, run [Op.create, Op.create, Op.addComp true 0 1 42]) := by
  decide

/-- Claim C7 (confirmed): `generateEntityID` returns the most recently freed
ID — the back of the reuse pool, where `destroyEntity` appends — when the
pool is non-empty, and the next unused counter value otherwise; and the call
sequence `createEntity`, `createEntity`, `destroyEntity 0`, `createEntity`
yields IDs 0, 1, and 0 again (the destroy succeeding in between). -/
theorem claim7_create_reuses_most_recently_freed_id :
    (∀ (st : ECSManager) (i : ID), st.reusableIDs.getLast? = some i →
        st.generateEntityID.1 = i) ∧
    (∀ st : ECSManager, st.reusableIDs = [] →
        st.generateEntityID.1 = st.nextID) ∧
    (ECSManager.empty.createEntity.1 = 0 ∧
     (ECSManager.empty.createEntity.2.createEntity).1 = 1 ∧
     ((ECSManager.empty.createEntity.2.createEntity).2.destroyEntity 0).1 = none ∧
     (((ECSManager.empty.createEntity.2.createEntity).2.destroyEntity 0).2.createEntity).1
       = 0) := by
  refine ⟨?_, ?_, by decide⟩
  · intro st i h
    simp [ECSManager.generateEntityID, h]
  · intro st h
    simp [ECSManager.generateEntityID, h]

/-- Witness for claim C7 at a concrete state: with pool `[3, 9]` the next ID
is 9 (most recently freed), and with an empty pool and counter 5 it is 5. -/
theorem claim7_witness :
    (ECSManager.mk [] [] [] [] 5 [3, 9]).generateEntityID.1 = 9 ∧
    (ECSManager.mk [] [] [] [] 5 []).generateEntityID.1 = 5 :=
  ⟨claim7_create_reuses_most_recently_freed_id.1
      (ECSManager.mk [] [] [] [] 5 [3, 9]) 9 (by decide),
   claim7_create_reuses_most_recently_freed_id.2.1
      (ECSManager.mk [] [] [] [] 5 []) (by decide)⟩

/-- Claim C8 counterexample: the claim says World-level `addComponent<T>`
fails when `id` is not live.  On a fresh manager entity 5 is not live, yet
`addComponent` (with `T` satisfying the Component check, type key 0) forwards
the value to the lazily created store, which afterwards holds entity 5 — the
operation has no failure result at all. -/
theorem claim8_counterexample :
    5 ∉ ECSManager.empty.entities ∧
    (ECSManager.empty.addComponent true 0 5 42).components =
      [(0, ComponentVector.mk [(5, 0)] [42])] := by
  decide

/-- Claim C8 (corrected): `ECSManager::addComponent<T>` never fails: when `T`
is not derived from `Component` it silently does nothing (no `InvalidType`
error), and when `T` is a `Component` the value is forwarded to the
registry's store for `T` with no liveness check on `entityID` whatsoever —
for a type key with no store yet, a fresh store is created in which
`entityID` occupies slot 0 with the given value, live or not.  The entity
registry part of the manager is untouched either way. -/
theorem claim8_add_component_unchecked_and_silent (st : ECSManager)
    (tkey : TypeKey) (entityID : ID) (v : Nat)
    (hfresh : mlookup st.components tkey = none) :
    st.addComponent false tkey entityID v = st ∧
    (st.addComponent true tkey entityID v).entities = st.entities ∧
    (st.addComponent true tkey entityID v).nextID = st.nextID ∧
    (st.addComponent true tkey entityID v).reusableIDs = st.reusableIDs ∧
    mlookup (st.addComponent true tkey entityID v).components tkey =
      some (ComponentVector.mk [(entityID, 0)] [v]) := by
  refine ⟨by simp [ECSManager.addComponent], by simp [ECSManager.addComponent],
          by simp [ECSManager.addComponent], by simp [ECSManager.addComponent], ?_⟩
  simp only [ECSManager.addComponent, if_true]
  unfold ComponentManager.addComponent ComponentManager.ensureVector
  rw [hfresh]
  simp only [Option.isSome_none, Bool.false_eq_true, if_false]
  rw [ComponentManager.updFun_eq_pairMap]
  refine Eq.trans (mlookup_map_snd
      (fun k cv => if k = tkey then cv.addComponent entityID v else cv)
      (st.components ++ [(tkey, ComponentVector.empty Nat)]) tkey) ?_
  rw [mlookup_append_of_none _ _ hfresh]
  simp [ComponentVector.addComponent, ComponentVector.empty, mapInsert]

/-- Witness for claim C8 at a concrete input: fresh manager, type key 0,
entity 5 (not live), value 42. -/
theorem claim8_witness :
    ECSManager.empty.addComponent false 0 5 42 = ECSManager.empty ∧
    (ECSManager.empty.addComponent true 0 5 42).entities = ECSManager.empty.entities ∧
    (ECSManager.empty.addComponent true 0 5 42).nextID = ECSManager.empty.nextID ∧
    (ECSManager.empty.addComponent true 0 5 42).reusableIDs
      = ECSManager.empty.reusableIDs ∧
    mlookup (ECSManager.empty.addComponent true 0 5 42).components 0 =
      some (ComponentVector.mk [(5, 0)] [42]) :=
  claim8_add_component_unchecked_and_silent ECSManager.empty 0 5 42 (by decide)

/-- Claim C10 (confirmed): on a store where `entityID` holds no component,
`getComponentAt` is not a pure read — the sparse index of the returned store
has gained the mapping `entityID ↦ 0` (`map::operator[]` default
construction), and whenever the dense array is non-empty the call returns
the dense element at position 0. -/
theorem claim10_get_on_absent_id_mutates_store (α : Type)
    (cv : ComponentVector α) (entityID : ID) (c : α) (rest : List α)
    (habs : mlookup cv.indexes entityID = none)
    (hcomp : cv.components = c :: rest) :
    (cv.getComponentAt entityID).1 = Except.ok c ∧
    mlookup (cv.getComponentAt entityID).2.indexes entityID = some 0 := by
  constructor
  · simp [ComponentVector.getComponentAt, habs, hcomp]
  · simp [ComponentVector.getComponentAt, habs, hcomp, mapInsert]

/-- Registry invariant underlying the ID-uniqueness claim: live ids are
pairwise distinct, pooled ids are pairwise distinct, every live or pooled id
is below the counter, and no pooled id is live. -/
def RegInv (st : ECSManager) : Prop :=
  st.entities.Nodup ∧ st.reusableIDs.Nodup ∧
  (∀ e ∈ st.entities, e < st.nextID) ∧
  (∀ p ∈ st.reusableIDs, p < st.nextID ∧ p ∉ st.entities)

/-- Registry fields of `createEntity` when the reuse pool is empty. -/
theorem createEntity_snd_pool_empty {st : ECSManager} (h : st.reusableIDs = []) :
    (st.createEntity).2.entities =
      (if st.nextID ∈ st.entities then st.entities else st.nextID :: st.entities) ∧
    (st.createEntity).2.nextID = st.nextID + 1 ∧
    (st.createEntity).2.reusableIDs = [] := by
  simp [ECSManager.createEntity, ECSManager.generateEntityID, h]

/-- Registry fields of `createEntity` when the reuse pool ends in `i`. -/
theorem createEntity_snd_pool_last {st : ECSManager} {i : ID}
    (h : st.reusableIDs.getLast? = some i) :
    (st.createEntity).2.entities =
      (if i ∈ st.entities then st.entities else i :: st.entities) ∧
    (st.createEntity).2.nextID = st.nextID ∧
    (st.createEntity).2.reusableIDs = st.reusableIDs.dropLast := by
  simp [ECSManager.createEntity, ECSManager.generateEntityID, h]

theorem regInv_createEntity {st : ECSManager} (h : RegInv st) :
    RegInv (st.createEntity).2 := by
  obtain ⟨hent, hpool, hlt, hpp⟩ := h
  cases hlast : st.reusableIDs.getLast? with
  | none =>
    have hnil : st.reusableIDs = [] := List.getLast?_eq_none_iff.mp hlast
    obtain ⟨he, hn, hr⟩ := createEntity_snd_pool_empty hnil
    have hfresh : st.nextID ∉ st.entities := fun hc => lt_irrefl _ (hlt _ hc)
    rw [if_neg hfresh] at he
    refine ⟨?_, ?_, ?_, ?_⟩
    · rw [he]; exact hent.cons hfresh
    · rw [hr]; exact List.nodup_nil
    · intro e hee
      rw [he] at hee
      rw [hn]
      rcases List.mem_cons.mp hee with h1 | h2
      · rw [h1]; exact Nat.lt_succ_self _
      · exact Nat.lt_succ_of_lt (hlt _ h2)
    · intro p hpm
      rw [hr] at hpm
      simp at hpm
  | some i =>
    obtain ⟨he, hn, hr⟩ := createEntity_snd_pool_last hlast
    have him : i ∈ st.reusableIDs := List.mem_of_getLast?_eq_some hlast
    obtain ⟨hilt, hine⟩ := hpp i him
    rw [if_neg hine] at he
    have hdecomp : st.reusableIDs.dropLast ++ [i] = st.reusableIDs :=
      List.dropLast_append_getLast? i (Option.mem_def.mpr hlast)
    have hsplit : st.reusableIDs.dropLast.Nodup ∧ ([i] : List ID).Nodup ∧
        st.reusableIDs.dropLast.Disjoint [i] := by
      rw [← List.nodup_append]
      rw [hdecomp]
      exact hpool
    refine ⟨?_, ?_, ?_, ?_⟩
    · rw [he]; exact hent.cons hine
    · rw [hr]; exact hsplit.1
    · intro e hee
      rw [he] at hee
      rw [hn]
      rcases List.mem_cons.mp hee with h1 | h2
      · rw [h1]; exact hilt
      · exact hlt _ h2
    · intro p hpm
      rw [hr] at hpm
      have hpmem : p ∈ st.reusableIDs := by
        rw [← hdecomp]
        exact List.mem_append_left _ hpm
      obtain ⟨hplt, hpne⟩ := hpp p hpmem
      have hpi : p ≠ i := by
        intro hpe
        exact hsplit.2.2 hpm (by simp [hpe])
      constructor
      · rw [hn]; exact hplt
      · rw [he]
        intro hc
        rcases List.mem_cons.mp hc with h1 | h2
        · exact hpi h1
        · exact hpne h2

theorem regInv_destroyEntity {st : ECSManager} (h : RegInv st) (entityID : ID) :
    RegInv (st.destroyEntity entityID).2 := by
  obtain ⟨hent, hpool, hlt, hpp⟩ := h
  unfold ECSManager.destroyEntity
  by_cases hmem : entityID ∈ st.entities
  · rw [if_pos hmem]
    cases hrm : ComponentManager.removeEntity st.components entityID with
    | mk err cm2 =>
      cases err with
      | some e => exact ⟨hent, hpool, hlt, hpp⟩
      | none =>
        refine ⟨hent.erase entityID, ?_, ?_, ?_⟩
        · rw [List.nodup_append]
          refine ⟨hpool, List.nodup_singleton _, ?_⟩
          intro p hpm hc
          rcases List.mem_singleton.mp hc with rfl
          exact (hpp p hpm).2 hmem
        · intro e hee
          exact hlt _ (List.mem_of_mem_erase hee)
        · intro p hpm
          rcases List.mem_append.mp hpm with h1 | h2
          · exact ⟨(hpp p h1).1, fun hc => (hpp p h1).2 (List.mem_of_mem_erase hc)⟩
          · rcases List.mem_singleton.mp h2 with rfl
            refine ⟨hlt _ hmem, fun hc => ?_⟩
            exact absurd rfl ((hent.mem_erase_iff.mp hc).1)
  · rw [if_neg hmem]
    exact ⟨hent, hpool, hlt, hpp⟩

theorem regInv_addComponent {st : ECSManager} (h : RegInv st) (b : Bool)
    (t : TypeKey) (entityID : ID) (v : Nat) :
    RegInv (st.addComponent b t entityID v) := by
  obtain ⟨hent, hpool, hlt, hpp⟩ := h
  cases b with
  | false => exact ⟨hent, hpool, hlt, hpp⟩
  | true => exact ⟨hent, hpool, hlt, hpp⟩

theorem regInv_applyOp {st : ECSManager} (h : RegInv st) (op : Op) :
    RegInv (applyOp st op) := by
  cases op with
  | create => exact regInv_createEntity h
  | destroy entityID => exact regInv_destroyEntity h entityID
  | addComp b t entityID v => exact regInv_addComponent h b t entityID v

theorem regInv_run (ops : List Op) : RegInv (run ops) := by
  suffices h : ∀ st, RegInv st → RegInv (ops.foldl applyOp st) by
    refine h ECSManager.empty ⟨List.nodup_nil, List.nodup_nil, ?_, ?_⟩ <;>
      intro x hx <;> simp [ECSManager.empty] at hx
  induction ops with
  | nil => intro st h; exact h
  | cons op rest ih =>
    intro st h
    exact ih _ (regInv_applyOp h op)

/-- Claim C9 (confirmed): after any finite sequence of `createEntity`,
`destroyEntity` (and `addComponent`) calls on a fresh manager, no two
simultaneously live entities share an ID — the live-id list is
duplicate-free — and every ID in the reuse pool differs from every live
entity's ID and from every unissued counter value (all pooled ids are below
`nextID`, while unissued ids are `nextID` and above). -/
theorem claim9_live_ids_never_collide (ops : List Op) :
    (run ops).entities.Nodup ∧
    ∀ p ∈ (run ops).reusableIDs, p ∉ (run ops).entities ∧ p < (run ops).nextID := by
  obtain ⟨h1, _, _, h4⟩ := regInv_run ops
  exact ⟨h1, fun p hp => ⟨(h4 p hp).2, (h4 p hp).1⟩⟩

/-- Claim C6 (confirmed): on a well-formed store — every recorded slot is a
valid dense position and no two entities share a slot — holding `entityID` at
slot `i`, `removeEntity` succeeds and: the dense array loses exactly the
element at position `i` (all subsequent elements shifted down one position),
the sparse entry for `entityID` is deleted, every surviving sparse entry
keeps its slot when below `i` and is decremented by one when above `i`;
consequently the store maps exactly the surviving entities, each still to its
original dense value, and every surviving slot is a valid position in the
shrunk dense array. -/
theorem claim6_remove_shifts_and_renumbers (α : Type) (cv : ComponentVector α)
    (entityID : ID) (i : Nat)
    (hfind : mlookup cv.indexes entityID = some i)
    (hbound : ∀ p ∈ cv.indexes, p.2 < cv.components.length)
    (hslots : (cv.indexes.map Prod.snd).Nodup) :
    ∃ cv2, cv.removeEntity entityID = Except.ok cv2 ∧
      cv2.components = cv.components.eraseIdx i ∧
      cv2.components.length + 1 = cv.components.length ∧
      mlookup cv2.indexes entityID = none ∧
      (∀ e j, e ≠ entityID → mlookup cv.indexes e = some j →
        mlookup cv2.indexes e = some (if i < j then j - 1 else j) ∧
        cv2.components[if i < j then j - 1 else j]? = cv.components[j]?) ∧
      (∀ e, mlookup cv.indexes e = none → mlookup cv2.indexes e = none) ∧
      (∀ p ∈ cv2.indexes, p.2 < cv2.components.length) := by
  have hi : i < cv.components.length := hbound _ (mlookup_mem hfind)
  have hunf : cv.removeEntity entityID = Except.ok
      ⟨(mapErase cv.indexes entityID).map (ComponentVector.renumber i),
       cv.components.eraseIdx i⟩ := by
    simp only [ComponentVector.removeEntity, hfind]
  have hlook : ∀ e,
      mlookup ((mapErase cv.indexes entityID).map (ComponentVector.renumber i)) e
        = (mlookup (mapErase cv.indexes entityID) e).map
            (fun j => if i < j then j - 1 else j) := by
    intro e
    rw [renumber_eq_pairMap]
    exact mlookup_map_snd (fun _ j => if i < j then j - 1 else j)
      (mapErase cv.indexes entityID) e
  refine ⟨_, hunf, rfl, ?_, ?_, ?_, ?_, ?_⟩
  · show (cv.components.eraseIdx i).length + 1 = cv.components.length
    have := List.length_eraseIdx_of_lt hi
    omega
  · rw [hlook, mlookup_mapErase_self]
    rfl
  · intro e j hne hj
    have hij : i ≠ j := by
      intro hEq
      subst hEq
      exact hne (slot_unique hslots (mlookup_mem hj) (mlookup_mem hfind))
    constructor
    · rw [hlook, mlookup_mapErase_ne _ _ _ hne, hj]
      rfl
    · by_cases hlt : i < j
      · rw [if_pos hlt, List.getElem?_eraseIdx_of_ge _ _ _ (by omega)]
        congr 1
        omega
      · rw [if_neg hlt, List.getElem?_eraseIdx_of_lt _ _ _ (by omega)]
  · intro e he
    by_cases hEq : e = entityID
    · subst hEq
      rw [hlook, mlookup_mapErase_self]
      rfl
    · rw [hlook, mlookup_mapErase_ne _ _ _ hEq, he]
      rfl
  · intro p hp
    obtain ⟨q, hq, rfl⟩ := List.mem_map.mp hp
    obtain ⟨hql, hqk⟩ := mem_mapErase hq
    have hqb := hbound q hql
    have hqi : q.2 ≠ i := by
      intro hEq
      apply hqk
      have : (q.1, q.2) ∈ cv.indexes := by simpa using hql
      rw [hEq] at this
      exact slot_unique hslots this (mlookup_mem hfind)
    rw [List.length_eraseIdx_of_lt hi]
    by_cases hgt : q.2 > i
    · simp only [ComponentVector.renumber, if_pos hgt]
      omega
    · simp only [ComponentVector.renumber, if_neg hgt]
      omega

/-- Witness for claim C6 at a concrete input: a store of three entities
0, 1, 2 at slots 0, 1, 2 (values 10, 20, 30), removing entity 1. -/
theorem claim6_witness :
    ∃ cv2, (ComponentVector.mk [(0, 0), (1, 1), (2, 2)] [10, 20, 30] :
        ComponentVector Nat).removeEntity 1 = Except.ok cv2 ∧
      cv2.components
        = ([10, 20, 30] : List Nat).eraseIdx 1 ∧
      cv2.components.length + 1
        = ([10, 20, 30] : List Nat).length ∧
      mlookup cv2.indexes 1 = none ∧
      (∀ e j, e ≠ 1 →
        mlookup ([(0, 0), (1, 1), (2, 2)] : List (ID × Nat)) e = some j →
        mlookup cv2.indexes e = some (if 1 < j then j - 1 else j) ∧
        cv2.components[if 1 < j then j - 1 else j]? = ([10, 20, 30] : List Nat)[j]?) ∧
      (∀ e, mlookup ([(0, 0), (1, 1), (2, 2)] : List (ID × Nat)) e = none →
        mlookup cv2.indexes e = none) ∧
      (∀ p ∈ cv2.indexes, p.2 < cv2.components.length) :=
  claim6_remove_shifts_and_renumbers Nat
    (ComponentVector.mk [(0, 0), (1, 1), (2, 2)] [10, 20, 30]) 1 1
    (by decide) (by decide) (by decide)

/-- Witness for claim C10 at a concrete input: a store holding only entity 1
with value 10, queried for the absent entity 2. -/
theorem claim10_witness :
    ((ComponentVector.mk [(1, 0)] [10] : ComponentVector Nat).getComponentAt 2).1
      = Except.ok 10 ∧
    mlookup ((ComponentVector.mk [(1, 0)] [10] :
        ComponentVector Nat).getComponentAt 2).2.indexes 2 = some 0 :=
  claim10_get_on_absent_id_mutates_store Nat (ComponentVector.mk [(1, 0)] [10]) 2 10 []
    (by decide) (by decide)

end Ecpps
